import Mathlib

/-!
Verification development for the equirectangular-to-planar projection
utilities (`nerfstudio/process_data/equirect_utils.py`).

Conventions of the shallow embedding:
* Python floats are modelled as exact rationals (`ℚ`); the algorithms use
  only field operations, so the idealized arithmetic agrees with the
  intended semantics.
* The pitch-bound array is a `List (Option ℚ)`: `none` is the Python
  `None` "removed" sentinel.
* An arithmetic operation or order comparison on the `None` sentinel
  raises a `TypeError` in Python; this is modelled by the `Except Unit`
  error channel (`.error ()`).
-/

namespace EquirectUtils

instance {ε α : Type} [DecidableEq ε] [DecidableEq α] : DecidableEq (Except ε α) := fun x y =>
  match x, y with
  | .ok a, .ok b =>
    if h : a = b then .isTrue (by rw [h]) else .isFalse (fun he => h (by cases he; rfl))
  | .error a, .error b =>
    if h : a = b then .isTrue (by rw [h]) else .isFalse (fun he => h (by cases he; rfl))
  | .ok _, .error _ => .isFalse (fun he => by cases he)
  | .error _, .ok _ => .isFalse (fun he => by cases he)

/-- Inner loop of `_crop_bottom`: `bound_arr[j] -= diff / (2 ** (i - j))`
for every index below the clamped one, walking away from it; `k` is the
current index gap.  Hitting the `None` sentinel raises. -/
def subDiffs (diff : ℚ) : ℕ → List (Option ℚ) → Except Unit (List (Option ℚ))
  | _, [] => .ok []
  | _, none :: _ => .error ()
  | k, some x :: rest => (subDiffs diff (k + 1) rest).map (fun r => some (x - diff / 2 ^ k) :: r)

/-- Scan of `_crop_bottom` over the bound array viewed from the highest
index downward (the list argument is the reversed array).  `s` is
`new_bottom_start`. -/
def cropBottomGo (s fov : ℚ) : List (Option ℚ) → Except Unit (List (Option ℚ))
  | [] => .ok []
  | none :: _ => .error ()
  | some el :: rest =>
    if el > s + fov / 2 then (cropBottomGo s fov rest).map (fun r => none :: r)
    else if el > s then (subDiffs (el - s) 1 rest).map (fun r => some s :: r)
    else (cropBottomGo s fov rest).map (fun r => some el :: r)

/-- Embedding of `_crop_bottom(bound_arr, fov, crop_factor)`:
`new_bottom_start = 90 - 180 * crop_factor - fov / 2`, scanning from the
highest index downward. -/
def cropBottom (boundArr : List (Option ℚ)) (fov cropFactor : ℚ) :
    Except Unit (List (Option ℚ)) :=
  (cropBottomGo (90 - 180 * cropFactor - fov / 2) fov boundArr.reverse).map List.reverse

/-- Inner loop of `_crop_top`: `bound_arr[j] += diff / (2 ** (j - i))` for
every index above the clamped one; `k` is the current index gap. -/
def addDiffs (diff : ℚ) : ℕ → List (Option ℚ) → Except Unit (List (Option ℚ))
  | _, [] => .ok []
  | _, none :: _ => .error ()
  | k, some x :: rest => (addDiffs diff (k + 1) rest).map (fun r => some (x + diff / 2 ^ k) :: r)

/-- Scan of `_crop_top` over the bound array from the lowest index upward.
`s` is `new_top_start`. -/
def cropTopGo (s fov : ℚ) : List (Option ℚ) → Except Unit (List (Option ℚ))
  | [] => .ok []
  | none :: _ => .error ()
  | some el :: rest =>
    if el < s - fov / 2 then (cropTopGo s fov rest).map (fun r => none :: r)
    else if el < s then (addDiffs (s - el) 1 rest).map (fun r => some s :: r)
    else (cropTopGo s fov rest).map (fun r => some el :: r)

/-- Embedding of `_crop_top(bound_arr, fov, crop_factor)`:
`new_top_start = -90 + 180 * crop_factor + fov / 2`, scanning from the
lowest index upward. -/
def cropTop (boundArr : List (Option ℚ)) (fov cropFactor : ℚ) :
    Except Unit (List (Option ℚ)) :=
  cropTopGo (-90 + 180 * cropFactor + fov / 2) fov boundArr

/-- The `crop_factor` 4-tuple, in the documented order
(top, bottom, left, right). -/
structure CropFactor where
  top : ℚ
  bottom : ℚ
  left : ℚ
  right : ℚ
deriving DecidableEq

/-- Embedding of `_crop_bound_arr_vertical`: the bottom pass runs first (when
`crop_factor[1] > 0`), then the top pass (when `crop_factor[0] > 0`) on
the bottom pass's output. -/
def cropBoundArrVertical (boundArr : List (Option ℚ)) (fov : ℚ) (c : CropFactor) :
    Except Unit (List (Option ℚ)) :=
  (if c.bottom > 0 then cropBottom boundArr fov c.bottom else .ok boundArr).bind
    (fun arr1 => if c.top > 0 then cropTop arr1 fov c.top else .ok arr1)

/-- The initial ring bounds `[-45, 0, 45]` used by every sampling preset. -/
def initialBounds : List (Option ℚ) := [some (-45), some 0, some 45]

/-! ## SampleGridBuilder -/

/-- Embedding of `np.arange(lo, hi, step)` for a positive step: the values
`lo + k * step` for `0 ≤ k < ⌈(hi - lo) / step⌉`. -/
def arangeList (lo hi step : ℚ) : List ℚ :=
  (List.range (Int.toNat ⌈(hi - lo) / step⌉)).map (fun (k : ℕ) => lo + (k : ℚ) * step)

/-- One ring's contribution to `yaw_pitch_pairs`: nothing when the ring's
bound is the removed sentinel, else one `(yaw, pitch)` pair per yaw in
`np.arange(left_bound, right_bound, step)`. -/
def ringPairs (lb rb step : ℚ) (b : Option ℚ) : List (ℚ × ℚ) :=
  match b with
  | none => []
  | some p => (arangeList lb rb step).map (fun y => (y, p))

/-- The `yaw_pitch_pairs` list built by
`generate_planar_projections_from_equirectangular` (all three variants
share this code verbatim): `left_bound` comes from `crop_factor[3]`
(the right fraction), `right_bound` from `crop_factor[2]` (the left
fraction); preset 8 uses fov 120 and steps 90/180/180, preset 14 uses
fov 110 and steps 60/90/90; rings are emitted middle, then upper, then
lower; any other preset leaves the list empty. -/
def buildYawPitchPairs (samples : ℤ) (c : CropFactor) : Except Unit (List (ℚ × ℚ)) :=
  let lb : ℚ := if c.right > 0 then -180 + 360 * c.right else -180
  let rb : ℚ := if c.left > 0 then 180 - 360 * c.left else 180
  if samples = 8 then
    (cropBoundArrVertical initialBounds 120 c).map (fun ba =>
      ringPairs lb rb 90 (ba.getD 1 none) ++ ringPairs lb rb 180 (ba.getD 2 none) ++
        ringPairs lb rb 180 (ba.getD 0 none))
  else if samples = 14 then
    (cropBoundArrVertical initialBounds 110 c).map (fun ba =>
      ringPairs lb rb 60 (ba.getD 1 none) ++ ringPairs lb rb 90 (ba.getD 2 none) ++
        ringPairs lb rb 90 (ba.getD 0 none))
  else .ok []

/-- The up-front crop-factor validation: every fraction must lie in
`[0, 1]`, otherwise the program exits (`sys.exit(1)`). -/
def validCrop (c : CropFactor) : Prop :=
  0 ≤ c.top ∧ c.top ≤ 1 ∧ 0 ≤ c.bottom ∧ c.bottom ≤ 1 ∧
    0 ≤ c.left ∧ c.left ≤ 1 ∧ 0 ≤ c.right ∧ c.right ≤ 1

instance (c : CropFactor) : Decidable (validCrop c) := by
  unfold validCrop; infer_instance

/-- The direction list actually used to render: validation first, then the
grid builder. -/
def generatePlanarDirections (samples : ℤ) (c : CropFactor) : Except Unit (List (ℚ × ℚ)) :=
  if validCrop c then buildYawPitchPairs samples c else .error ()

/-- The list a successful run renders, empty on the error paths. -/
def dirsOf (r : Except Unit (List (ℚ × ℚ))) : List (ℚ × ℚ) :=
  match r with
  | .ok l => l
  | .error _ => []

/-! ## Reprojector warp-call parameters

Each `equi2pers(...)` call site is modelled by the parameters it passes.
A radian angle `π * deg / 180` is represented exactly by its coefficient
of `π`, i.e. `deg / 180 : ℚ`; two such calls receive equal radian angles
iff the coefficients are equal. -/

/-- The `rots` dictionary of one warp call: `roll`, `pitch`, `yaw`, each
stored as its coefficient of `π` radians. -/
structure Rots where
  roll : ℚ
  pitch : ℚ
  yaw : ℚ
deriving DecidableEq

/-- The `rots` built in every projection loop:
`{"roll": 0, "pitch": pi * v_deg / 180, "yaw": pi * u_deg / 180}`. -/
def mkRots (u v : ℚ) : Rots := ⟨0, v / 180, u / 180⟩

/-- All parameters of one `equi2pers` invocation: the rotation, the
`fov_x` and output size fixed at `Equi2Pers` construction, the
interpolation mode, and the `clip_output` argument (`none` when the call
site passes nothing and the library default applies). -/
structure WarpCall where
  rots : Rots
  fovX : ℚ
  height : ℕ
  width : ℕ
  mode : String
  clipOutput : Option Bool
deriving DecidableEq

/-- The channels the two batch renderers produce. -/
inductive Channel
  | color
  | mask
  | hdr
  | maskE1
  | maskE2
  | e1
  | e2
deriving DecidableEq

/-- The warp calls `generate_planar_projections_from_equirectangular`
issues for one direction `(u_deg, v_deg)`: the color image through
`equi2pers`, then (when present) the mask and the HDR channel through
`equi2pers_hdr`, which shares `fov_x` and mode with `equi2pers` and
falls back to `equi2pers` itself when no HDR directory is given. -/
def warpCallsPerDirection (psize hsize : ℕ × ℕ) (fov : ℚ) (maskOn hdrOn : Bool)
    (u v : ℚ) : List (Channel × WarpCall) :=
  let hdrSize := if hdrOn then hsize else psize
  (Channel.color, ⟨mkRots u v, fov, psize.2, psize.1, "bilinear", none⟩) ::
    ((if maskOn then
        [(Channel.mask, ⟨mkRots u v, fov, hdrSize.2, hdrSize.1, "bilinear", none⟩)]
      else []) ++
      (if hdrOn then
        [(Channel.hdr, ⟨mkRots u v, fov, hdrSize.2, hdrSize.1, "bilinear", some false⟩)]
      else []))

/-- The warp calls
`generate_planar_projections_from_equirectangular_with_two_exposures`
issues for one direction: color, the two exposure masks, and the two
exposure channels, all through the single `equi2pers` object. -/
def warpCallsPerDirectionTwoExp (psize : ℕ × ℕ) (fov u v : ℚ) : List (Channel × WarpCall) :=
  [(Channel.color, ⟨mkRots u v, fov, psize.2, psize.1, "bilinear", none⟩),
    (Channel.maskE1, ⟨mkRots u v, fov, psize.2, psize.1, "bilinear", none⟩),
    (Channel.maskE2, ⟨mkRots u v, fov, psize.2, psize.1, "bilinear", none⟩),
    (Channel.e1, ⟨mkRots u v, fov, psize.2, psize.1, "bilinear", some false⟩),
    (Channel.e2, ⟨mkRots u v, fov, psize.2, psize.1, "bilinear", some false⟩)]

/-! ## Output file naming -/

/-- Python `i[:-4]`: the file name with its last four characters
removed. -/
def takeButLast4 (l : List Char) : List Char := l.take (l.length - 4)

/-- Decimal rendering of the direction index. -/
def natChars (n : ℕ) : List Char := (Nat.repr n).data

/-- The extension written for floating-point outputs. -/
def extExr : List Char := ['e', 'x', 'r']

/-- The extension written for 8-bit outputs. -/
def extPng : List Char := ['p', 'n', 'g']

/-- The output file name `f"{i[:-4]}_{count}.{ext}"` (directory part
omitted). -/
def outName (i : List Char) (count : ℕ) (ext : List Char) : List Char :=
  takeButLast4 i ++ ['_'] ++ natChars count ++ ['.'] ++ ext

/-- Python `i.lower().endswith(".exr")`. -/
def endsWithExr (i : List Char) : Bool :=
  ['.', 'e', 'x', 'r'].isSuffixOf (i.map Char.toLower)

/-- Color channel output name: `.exr` for `.exr` sources, `.png`
otherwise. -/
def colorOutName (i : List Char) (count : ℕ) : List Char :=
  if endsWithExr i then outName i count extExr else outName i count extPng

/-- Mask channel output name: always `.png`. -/
def maskOutName (i : List Char) (count : ℕ) : List Char := outName i count extPng

/-- HDR channel output name: `.exr` when `is_HDR` is set, `.png`
otherwise. -/
def hdrOutName (isHdr : Bool) (i : List Char) (count : ℕ) : List Char :=
  if isHdr then outName i count extExr else outName i count extPng

/-! ## Ground-truth mode frame records -/

/-- The part of a manifest frame record the exposure claim concerns. -/
structure GTFrame where
  filePath : List Char
  exposure : Option ℚ
deriving DecidableEq

/-- The frame record `generate_planar_projections_from_equirectangular_GT`
appends for source file `i` at direction index `count`: the `.exr`
branch attaches `exposure` (0.009 when `i[0:3] == "rhs"`, else 1.0)
exactly when `use_exposure` is set; the non-`.exr` branch never attaches
one. -/
def gtFrame (i : List Char) (count : ℕ) (useExposure : Bool) : GTFrame :=
  if endsWithExr i then
    ⟨outName i count extExr,
      if useExposure then (if i.take 3 = ['r', 'h', 's'] then some (9 / 1000) else some 1)
      else none⟩
  else ⟨outName i count extPng, none⟩

/-! ## PoseDeriver (ground-truth mode) -/

/-- Rotation about the x-axis. -/
noncomputable def rotX (a : ℝ) : Matrix (Fin 3) (Fin 3) ℝ :=
  !![1, 0, 0; 0, Real.cos a, -Real.sin a; 0, Real.sin a, Real.cos a]

/-- Rotation about the y-axis. -/
noncomputable def rotY (a : ℝ) : Matrix (Fin 3) (Fin 3) ℝ :=
  !![Real.cos a, 0, Real.sin a; 0, 1, 0; -Real.sin a, 0, Real.cos a]

/-- Rotation about the z-axis. -/
noncomputable def rotZ (a : ℝ) : Matrix (Fin 3) (Fin 3) ℝ :=
  !![Real.cos a, -Real.sin a, 0; Real.sin a, Real.cos a, 0; 0, 0, 1]

/-- Embedding of `Rotation.from_euler('XYZ', [a, b, c]).as_matrix()`: intrinsic
rotations about x, then the new y, then the new z axis compose on the
right. -/
noncomputable def eulerXYZ (a b c : ℝ) : Matrix (Fin 3) (Fin 3) ℝ :=
  rotX a * rotY b * rotZ c

/-- The top-left 3×3 rotation block of a 4×4 pose. -/
def rotOf (pose : Matrix (Fin 4) (Fin 4) ℝ) : Matrix (Fin 3) (Fin 3) ℝ :=
  Matrix.of fun i j => pose (Fin.castLE (by omega) i) (Fin.castLE (by omega) j)

/-- The product of `inv(Rotation.from_euler('XYZ', [v_rad, -u_rad, 0]))` left-multiplied
by the panorama rotation, as in the ground-truth loop (`u`, `v` in
radians). -/
noncomputable def deriveRotation (rPano : Matrix (Fin 3) (Fin 3) ℝ) (u v : ℝ) :
    Matrix (Fin 3) (Fin 3) ℝ :=
  rPano * (eulerXYZ v (-u) 0)⁻¹

/-- The perspective pose: a copy of the panorama pose whose top-left 3×3
block is replaced by the derived rotation. -/
noncomputable def derivePose (pose : Matrix (Fin 4) (Fin 4) ℝ) (u v : ℝ) :
    Matrix (Fin 4) (Fin 4) ℝ :=
  Matrix.of fun i j =>
    if h : i.val < 3 ∧ j.val < 3 then
      deriveRotation (rotOf pose) u v ⟨i.val, h.1⟩ ⟨j.val, h.2⟩
    else pose i j

/-! ## The crop algorithm as the specification describes it -/

/-- The bottom-crop pass as the specification words it, unrolled on a
3-entry list scanned from the highest index down: entries strictly above
`start + F/2` are removed; the first remaining entry strictly above
`start` is clamped to `start` and the difference is propagated to the
lower entries divided by `2 ^ gap`; the scan then stops. -/
def bottomCropDescribed (a b c F f : ℚ) : Option ℚ × Option ℚ × Option ℚ :=
  let s := 90 - 180 * f - F / 2
  if c > s + F / 2 then
    if b > s + F / 2 then
      if a > s + F / 2 then (none, none, none)
      else if a > s then (some s, none, none)
      else (some a, none, none)
    else if b > s then (some (a - (b - s) / 2), some s, none)
    else (some a, some b, none)
  else if c > s then (some (a - (c - s) / 4), some (b - (c - s) / 2), some s)
  else (some a, some b, some c)

/-- The top-crop pass as the specification words it, mirrored: scan from
the lowest index up, remove entries strictly below `start - F/2`, clamp
the first remaining entry strictly below `start` up to `start`, add the
propagated difference to the higher entries. -/
def topCropDescribed (a b c F f : ℚ) : Option ℚ × Option ℚ × Option ℚ :=
  let s := -90 + 180 * f + F / 2
  if a < s - F / 2 then
    if b < s - F / 2 then
      if c < s - F / 2 then (none, none, none)
      else if c < s then (none, none, some s)
      else (none, none, some c)
    else if b < s then (none, some s, some (c + (s - b) / 2))
    else (none, some b, some c)
  else if a < s then (some s, some (b + (s - a) / 2), some (c + (s - a) / 4))
  else (some a, some b, some c)

/-- A bound triple as the 3-entry list the implementation mutates. -/
def toList3 (t : Option ℚ × Option ℚ × Option ℚ) : List (Option ℚ) := [t.1, t.2.1, t.2.2]

/-- The claimed (but not implemented) left yaw bound
`-180 + 360 * cropLeft`. -/
def leftBoundClaimed (c : CropFactor) : ℚ :=
  if c.left > 0 then -180 + 360 * c.left else -180

/-- The claimed (but not implemented) right yaw bound
`180 - 360 * cropRight`. -/
def rightBoundClaimed (c : CropFactor) : ℚ :=
  if c.right > 0 then 180 - 360 * c.right else 180

/-! ## Helper lemmas -/

/-- The redistribution loop of the top pass raises as soon as it reaches a
removed entry. -/
lemma addDiffs_sentinel (d : ℚ) :
    ∀ (k : ℕ) (l : List (Option ℚ)), none ∈ l → addDiffs d k l = .error () := by
  intro k l
  induction l generalizing k with
  | nil => intro h; cases h
  | cons hd tl ih =>
    intro h
    cases hd with
    | none => rfl
    | some x =>
      have htl : none ∈ tl := by
        rcases List.mem_cons.mp h with h1 | h1
        · cases h1
        · exact h1
      rw [addDiffs, ih (k + 1) htl]
      rfl

/-- The top-pass scan raises whenever the array still contains a removed
entry: every entry before the sentinel either continues the scan or
breaks into the redistribution loop, which itself reaches the
sentinel. -/
lemma cropTopGo_sentinel (s fov : ℚ) :
    ∀ l : List (Option ℚ), none ∈ l → cropTopGo s fov l = .error () := by
  intro l
  induction l with
  | nil => intro h; cases h
  | cons hd tl ih =>
    intro h
    cases hd with
    | none => rfl
    | some x =>
      have htl : none ∈ tl := by
        rcases List.mem_cons.mp h with h1 | h1
        · cases h1
        · exact h1
      rw [cropTopGo]
      split_ifs
      · rw [ih htl]; rfl
      · rw [addDiffs_sentinel (s - x) 1 tl htl]; rfl
      · rw [ih htl]; rfl

/-- Every element of `np.arange(lo, hi, step)` with positive step lies in
`[lo, hi)`. -/
lemma arangeList_mem_bounds {lo hi step y : ℚ} (hstep : 0 < step)
    (hy : y ∈ arangeList lo hi step) : lo ≤ y ∧ y < hi := by
  rw [arangeList, List.mem_map] at hy
  obtain ⟨k, hk, rfl⟩ := hy
  rw [List.mem_range] at hk
  have hk1 : ((k : ℤ) : ℚ) < (hi - lo) / step := Int.lt_ceil.mp (Int.lt_toNat.mp hk)
  have hk2 : (k : ℚ) * step < hi - lo := by
    rw [← lt_div_iff₀ hstep]
    exact_mod_cast hk1
  have hk0 : (0 : ℚ) ≤ (k : ℚ) * step := mul_nonneg (Nat.cast_nonneg k) hstep.le
  constructor <;> linarith

/-- Every yaw a ring emits lies between the two horizontal bounds. -/
lemma ringPairs_mem_bounds {lb rb step y p : ℚ} {b : Option ℚ} (hstep : 0 < step)
    (h : (y, p) ∈ ringPairs lb rb step b) : lb ≤ y ∧ y < rb := by
  cases b with
  | none => simp [ringPairs] at h
  | some q =>
    simp only [ringPairs, List.mem_map] at h
    obtain ⟨x, hx, hxy⟩ := h
    cases hxy
    exact arangeList_mem_bounds hstep hx

/-- Rotating by a zero angle about the x-axis gives the identity. -/
lemma rotX_zero : rotX 0 = 1 := by
  rw [rotX, Real.cos_zero, Real.sin_zero, neg_zero]
  exact Matrix.one_fin_three.symm

/-- Rotating by a zero angle about the y-axis gives the identity. -/
lemma rotY_zero : rotY 0 = 1 := by
  rw [rotY, Real.cos_zero, Real.sin_zero, neg_zero]
  exact Matrix.one_fin_three.symm

/-- Rotating by a zero angle about the z-axis gives the identity. -/
lemma rotZ_zero : rotZ 0 = 1 := by
  rw [rotZ, Real.cos_zero, Real.sin_zero, neg_zero]
  exact Matrix.one_fin_three.symm

/-- The Euler rotation at all-zero angles is the identity. -/
lemma eulerXYZ_zero : eulerXYZ 0 0 0 = 1 := by
  rw [eulerXYZ, rotX_zero, rotY_zero, rotZ_zero, one_mul, one_mul]

/-- Python `i[:-4]` strips exactly a 4-character extension. -/
lemma takeButLast4_append4 (s e : List Char) (he : e.length = 4) :
    takeButLast4 (s ++ e) = s := by
  rw [takeButLast4, List.length_append, he]
  simp only [Nat.add_sub_cancel]
  exact List.take_left s e

/-- Python `i[:-4]` keeps the dot of a 5-character `.jpeg` extension. -/
lemma takeButLast4_append5 (s e : List Char) (he : e.length = 5) :
    takeButLast4 (s ++ e) = s ++ e.take 1 := by
  rw [takeButLast4, List.length_append, he]
  have h : s.length + 5 - 4 = s.length + 1 := by omega
  rw [h, List.take_append]

/-! ## Claim theorems -/

/-- C1: for every 3-entry ascending pitch list, (positive) field of view
`F` and bottom crop fraction `f > 0`, the bottom-crop pass computes
`start = 90 - 180 f - F/2`, scans from the highest index downward,
removes entries strictly above `start + F/2`, clamps the first entry
strictly above `start` and redistributes `diff / 2 ^ gap` to the lower
entries, then stops; in particular bottom crop 0.2 at fov 120 on
`(-45, 0, 45)` gives `(-57.75, -25.5, -6)` with nothing removed. -/
theorem crop_bottom_description :
    (∀ a b c F f : ℚ, 0 < F → 0 < f → a < b → b < c →
        cropBottom [some a, some b, some c] F f =
          .ok (toList3 (bottomCropDescribed a b c F f))) ∧
      cropBottom initialBounds 120 (1 / 5) =
        .ok [some (-231 / 4), some (-51 / 2), some (-6)] := by
  constructor
  · intro a b c F f hF hf hab hbc
    simp only [cropBottom, bottomCropDescribed, toList3, List.reverse_cons, List.reverse_nil,
      List.nil_append, List.cons_append, cropBottomGo, subDiffs, Except.map]
    split_ifs <;>
      first
        | (exfalso; linarith)
        | norm_num [List.reverse_cons, List.reverse_nil, List.nil_append, List.cons_append]
  · norm_num [cropBottom, cropBottomGo, subDiffs, Except.map, initialBounds]

/-- Witness for C1: the instance `(-45, 0, 45)`, fov 120, fraction 1/5
satisfies the hypotheses and the description. -/
theorem crop_bottom_description_witness :
    cropBottom [some (-45), some 0, some 45] 120 (1 / 5) =
      .ok (toList3 (bottomCropDescribed (-45) 0 45 120 (1 / 5))) :=
  crop_bottom_description.1 (-45) 0 45 120 (1 / 5) (by norm_num) (by norm_num)
    (by norm_num) (by norm_num)

/-- C2: with zero crop, preset 8 yields exactly these 8 directions and
preset 14 exactly these 14, middle ring first, then upper, then lower,
yaws stepped from -180 up to but excluding 180. -/
theorem preset_sample_grids :
    generatePlanarDirections 8 ⟨0, 0, 0, 0⟩ =
        .ok [(-180, 0), (-90, 0), (0, 0), (90, 0),
          (-180, 45), (0, 45), (-180, -45), (0, -45)] ∧
      generatePlanarDirections 14 ⟨0, 0, 0, 0⟩ =
        .ok [(-180, 0), (-120, 0), (-60, 0), (0, 0), (60, 0), (120, 0),
          (-180, 45), (-90, 45), (0, 45), (90, 45),
          (-180, -45), (-90, -45), (0, -45), (90, -45)] := by
  have hv : validCrop ⟨0, 0, 0, 0⟩ := by norm_num [validCrop]
  constructor <;>
    · unfold generatePlanarDirections
      rw [if_pos hv]
      norm_num [buildYawPitchPairs, cropBoundArrVertical, ringPairs, arangeList, initialBounds,
        Except.map, Except.bind, List.getD, List.range, List.range.loop]

/-- C3: for every direction, every channel of one panorama is warped with
identical rotation parameters (roll 0, pitch `π·v/180`, yaw `π·u/180`),
the same field of view and bilinear interpolation, in both the
mask/HDR renderer and the two-exposure renderer. -/
theorem warp_calls_rotation_aligned :
    ∀ (psize hsize : ℕ × ℕ) (fov : ℚ) (maskOn hdrOn : Bool) (u v : ℚ),
      (∀ pc ∈ warpCallsPerDirection psize hsize fov maskOn hdrOn u v,
        (pc.2).rots = Rots.mk 0 (v / 180) (u / 180) ∧ (pc.2).fovX = fov ∧
          (pc.2).mode = "bilinear") ∧
      (∀ pc ∈ warpCallsPerDirectionTwoExp psize fov u v,
        (pc.2).rots = Rots.mk 0 (v / 180) (u / 180) ∧ (pc.2).fovX = fov ∧
          (pc.2).mode = "bilinear") := by
  intro psize hsize fov maskOn hdrOn u v
  constructor
  · cases maskOn <;> cases hdrOn <;> simp [warpCallsPerDirection, mkRots]
  · simp [warpCallsPerDirectionTwoExp, mkRots]

/-- Witness for C3: the color call of a concrete configuration carries
the claimed parameters. -/
theorem warp_calls_rotation_aligned_witness :
    ((Channel.color,
        (⟨mkRots 90 45, 120, 1, 1, "bilinear", none⟩ : WarpCall)).2).rots =
        Rots.mk 0 ((45 : ℚ) / 180) ((90 : ℚ) / 180) ∧
      ((Channel.color,
        (⟨mkRots 90 45, 120, 1, 1, "bilinear", none⟩ : WarpCall)).2).fovX = 120 ∧
      ((Channel.color,
        (⟨mkRots 90 45, 120, 1, 1, "bilinear", none⟩ : WarpCall)).2).mode = "bilinear" :=
  (warp_calls_rotation_aligned (1, 1) (1, 1) 120 false false 90 45).1
    (Channel.color, ⟨mkRots 90 45, 120, 1, 1, "bilinear", none⟩) (by simp [warpCallsPerDirection])

/-- C4: the derived perspective pose replaces only the 3×3 rotation block
with `R_pano * (eulerXYZ pitch (-yaw) 0)⁻¹`; the fourth column and the
fourth row (translation and homogeneous part) are copied unchanged; at
yaw 0, pitch 0 the derived rotation is the panorama's own. -/
theorem derived_pose_rotation_translation :
    ∀ (pose : Matrix (Fin 4) (Fin 4) ℝ) (u v : ℝ),
      rotOf (derivePose pose u v) = rotOf pose * (eulerXYZ v (-u) 0)⁻¹ ∧
      (∀ i : Fin 4, derivePose pose u v i 3 = pose i 3) ∧
      (∀ j : Fin 4, derivePose pose u v 3 j = pose 3 j) ∧
      deriveRotation (rotOf pose) 0 0 = rotOf pose := by
  intro pose u v
  refine ⟨?_, ?_, ?_, ?_⟩
  · ext i j
    simp only [rotOf, derivePose, Matrix.of_apply]
    rw [dif_pos ⟨i.isLt, j.isLt⟩]
    rfl
  · intro i
    simp only [derivePose, Matrix.of_apply]
    rw [dif_neg (fun h => absurd h.2 (by decide))]
  · intro j
    simp only [derivePose, Matrix.of_apply]
    rw [dif_neg (fun h => absurd h.1 (by decide))]
  · rw [deriveRotation, neg_zero, eulerXYZ_zero,
      Matrix.inv_eq_right_inv (one_mul (1 : Matrix (Fin 3) (Fin 3) ℝ)), mul_one]

/-- C5 counterexample: with crop `(0, 0, 1/4, 0)` (left fraction 1/4) the
builder emits yaw -180, strictly below the claimed left bound
`-180 + 360 * cropLeft = -90`: the code derives the left bound from the
right fraction and the right bound from the left fraction. -/
theorem left_bound_claim_counterexample :
    ((-180 : ℚ), (0 : ℚ)) ∈ dirsOf (buildYawPitchPairs 8 ⟨0, 0, 1 / 4, 0⟩) ∧
      (-180 : ℚ) < leftBoundClaimed ⟨0, 0, 1 / 4, 0⟩ := by
  constructor
  · norm_num [dirsOf, buildYawPitchPairs, cropBoundArrVertical, ringPairs, arangeList,
      initialBounds, Except.map, Except.bind, List.getD, List.range, List.range.loop]
  · norm_num [leftBoundClaimed]

/-- C5 amended: the horizontal bounds the builder actually uses are
`-180 + 360 * cropRight` (when the right fraction is positive, else
-180) on the left and `180 - 360 * cropLeft` (when the left fraction is
positive, else 180) on the right: every emitted yaw lies in that
half-open interval. -/
theorem yaw_bounds_use_swapped_fractions :
    ∀ (samples : ℤ) (c : CropFactor) (y p : ℚ),
      (y, p) ∈ dirsOf (buildYawPitchPairs samples c) →
        (if c.right > 0 then -180 + 360 * c.right else -180) ≤ y ∧
          y < (if c.left > 0 then 180 - 360 * c.left else 180) := by
  intro samples c y p hmem
  simp only [buildYawPitchPairs] at hmem
  set lb := (if c.right > 0 then -180 + 360 * c.right else (-180 : ℚ)) with hlb
  set rb := (if c.left > 0 then 180 - 360 * c.left else (180 : ℚ)) with hrb
  by_cases h8 : samples = 8
  · rw [if_pos h8] at hmem
    cases h : cropBoundArrVertical initialBounds 120 c with
    | error e => rw [h] at hmem; simp [dirsOf, Except.map] at hmem
    | ok ba =>
      rw [h] at hmem
      simp only [Except.map, dirsOf, List.mem_append] at hmem
      rcases hmem with (hm | hm) | hm
      · exact ringPairs_mem_bounds (show (0 : ℚ) < 90 by norm_num) hm
      · exact ringPairs_mem_bounds (show (0 : ℚ) < 180 by norm_num) hm
      · exact ringPairs_mem_bounds (show (0 : ℚ) < 180 by norm_num) hm
  · rw [if_neg h8] at hmem
    by_cases h14 : samples = 14
    · rw [if_pos h14] at hmem
      cases h : cropBoundArrVertical initialBounds 110 c with
      | error e => rw [h] at hmem; simp [dirsOf, Except.map] at hmem
      | ok ba =>
        rw [h] at hmem
        simp only [Except.map, dirsOf, List.mem_append] at hmem
        rcases hmem with (hm | hm) | hm
        · exact ringPairs_mem_bounds (show (0 : ℚ) < 60 by norm_num) hm
        · exact ringPairs_mem_bounds (show (0 : ℚ) < 90 by norm_num) hm
        · exact ringPairs_mem_bounds (show (0 : ℚ) < 90 by norm_num) hm
    · rw [if_neg h14] at hmem
      simp [dirsOf] at hmem

/-- Witness for the amended C5 at preset 8, crop `(0, 0, 1/4, 0)` and the
emitted direction `(-180, 0)`. -/
theorem yaw_bounds_use_swapped_fractions_witness :
    (if (⟨0, 0, 1 / 4, 0⟩ : CropFactor).right > 0
        then -180 + 360 * (⟨0, 0, 1 / 4, 0⟩ : CropFactor).right else -180) ≤ (-180 : ℚ) ∧
      (-180 : ℚ) < (if (⟨0, 0, 1 / 4, 0⟩ : CropFactor).left > 0
        then 180 - 360 * (⟨0, 0, 1 / 4, 0⟩ : CropFactor).left else 180) :=
  yaw_bounds_use_swapped_fractions 8 ⟨0, 0, 1 / 4, 0⟩ (-180) 0
    (by norm_num [dirsOf, buildYawPitchPairs, cropBoundArrVertical, ringPairs, arangeList,
      initialBounds, Except.map, Except.bind, List.getD, List.range, List.range.loop])

/-- C6: the top-crop pass computes `start = -90 + 180 f + F/2`, scans
from the lowest index upward, removes entries strictly below
`start - F/2`, clamps the first entry strictly below `start` up to
`start` and adds `diff / 2 ^ gap` to the higher entries before stopping;
in particular top crop 0.2 at fov 120 on `(-45, 0, 45)` gives
`(6, 25.5, 57.75)`. -/
theorem crop_top_description :
    (∀ a b c F f : ℚ, 0 < F → 0 < f → a < b → b < c →
        cropTop [some a, some b, some c] F f =
          .ok (toList3 (topCropDescribed a b c F f))) ∧
      cropTop initialBounds 120 (1 / 5) =
        .ok [some 6, some (51 / 2), some (231 / 4)] := by
  constructor
  · intro a b c F f hF hf hab hbc
    simp only [cropTop, topCropDescribed, toList3, cropTopGo, addDiffs, Except.map]
    split_ifs <;>
      first
        | (exfalso; linarith)
        | norm_num
  · norm_num [cropTop, cropTopGo, addDiffs, Except.map, initialBounds]

/-- Witness for C6: the instance `(-45, 0, 45)`, fov 120, fraction 1/5
satisfies the hypotheses and the description. -/
theorem crop_top_description_witness :
    cropTop [some (-45), some 0, some 45] 120 (1 / 5) =
      .ok (toList3 (topCropDescribed (-45) 0 45 120 (1 / 5))) :=
  crop_top_description.1 (-45) 0 45 120 (1 / 5) (by norm_num) (by norm_num)
    (by norm_num) (by norm_num)

/-- C7: any preset other than 8 and 14 passes validation and produces an
empty direction list, with no error raised. -/
theorem unsupported_preset_yields_empty :
    ∀ (s : ℤ) (c : CropFactor), validCrop c → s ≠ 8 → s ≠ 14 →
      generatePlanarDirections s c = .ok [] := by
  intro s c hv h8 h14
  unfold generatePlanarDirections buildYawPitchPairs
  rw [if_pos hv, if_neg h8, if_neg h14]

/-- Witness for C7: preset 5 with zero crop yields the empty list. -/
theorem unsupported_preset_yields_empty_witness :
    generatePlanarDirections 5 ⟨0, 0, 0, 0⟩ = .ok [] :=
  unsupported_preset_yields_empty 5 ⟨0, 0, 0, 0⟩ (by norm_num [validCrop])
    (by norm_num) (by norm_num)

/-- C8 counterexample: for the `.jpeg` source `a.jpeg` at direction 0 the
color output is named `a._0.png` (the code strips the last four
characters, leaving the dot), not the claimed `a_0.png`. -/
theorem jpeg_naming_counterexample :
    colorOutName ['a', '.', 'j', 'p', 'e', 'g'] 0 ≠
        ['a', '_', '0', '.', 'p', 'n', 'g'] ∧
      colorOutName ['a', '.', 'j', 'p', 'e', 'g'] 0 =
        ['a', '.', '_', '0', '.', 'p', 'n', 'g'] := by
  constructor
  · decide
  · decide

/-- C8 amended: outputs are named `<p>_<index>.<ext>` where `<p>` is the
source name minus its last four characters — the stem for the 4-character
extensions `.jpg`, `.png`, `.exr`, the stem plus a trailing dot for
`.jpeg` — and the extension is `exr` for `.exr`-sourced color and
HDR-mode outputs, `png` otherwise. -/
theorem output_naming_shape :
    ∀ (stem : List Char) (idx : ℕ) (ext : List Char),
      outName (stem ++ ['.', 'j', 'p', 'g']) idx ext =
          stem ++ ['_'] ++ natChars idx ++ ['.'] ++ ext ∧
        outName (stem ++ ['.', 'p', 'n', 'g']) idx ext =
          stem ++ ['_'] ++ natChars idx ++ ['.'] ++ ext ∧
        outName (stem ++ ['.', 'e', 'x', 'r']) idx ext =
          stem ++ ['_'] ++ natChars idx ++ ['.'] ++ ext ∧
        outName (stem ++ ['.', 'j', 'p', 'e', 'g']) idx ext =
          (stem ++ ['.']) ++ ['_'] ++ natChars idx ++ ['.'] ++ ext ∧
        colorOutName ['b', '.', 'e', 'x', 'r'] 7 = ['b', '_', '7', '.', 'e', 'x', 'r'] ∧
        colorOutName ['b', '.', 'p', 'n', 'g'] 7 = ['b', '_', '7', '.', 'p', 'n', 'g'] ∧
        maskOutName ['b', '.', 'e', 'x', 'r'] 7 = ['b', '_', '7', '.', 'p', 'n', 'g'] ∧
        hdrOutName true ['b', '.', 'p', 'n', 'g'] 7 = ['b', '_', '7', '.', 'e', 'x', 'r'] ∧
        hdrOutName false ['b', '.', 'p', 'n', 'g'] 7 = ['b', '_', '7', '.', 'p', 'n', 'g'] := by
  intro stem idx ext
  refine ⟨?_, ?_, ?_, ?_, by decide, by decide, by decide, by decide, by decide⟩
  · rw [outName, takeButLast4_append4 stem _ (by decide)]
  · rw [outName, takeButLast4_append4 stem _ (by decide)]
  · rw [outName, takeButLast4_append4 stem _ (by decide)]
  · rw [outName, takeButLast4_append5 stem _ (by decide)]
    rfl

/-- C9 counterexample: in ground-truth mode with exposure output enabled,
the frame of the non-`.exr` source `a.png` carries no exposure scalar at
all (the code only attaches `exposure` in the `.exr` branch), where the
claim demands 1.0. -/
theorem png_frame_no_exposure_counterexample :
    (gtFrame ['a', '.', 'p', 'n', 'g'] 0 true).exposure = none ∧
      (gtFrame ['a', '.', 'p', 'n', 'g'] 0 true).exposure ≠ some 1 := by
  constructor
  · decide
  · decide

/-- C9 amended: with exposure output enabled, exactly the frames of
`.exr` source panoramas carry an exposure scalar — 0.009 when the file
name starts with the `rhs` marker, 1.0 otherwise; frames of other
sources carry none. -/
theorem exr_frame_exposure_rule :
    ∀ (i : List Char) (count : ℕ) (u : Bool),
      (endsWithExr i = true → u = true →
        (gtFrame i count u).exposure =
          some (if i.take 3 = ['r', 'h', 's'] then 9 / 1000 else 1)) ∧
      (endsWithExr i = true → u = false → (gtFrame i count u).exposure = none) ∧
      (endsWithExr i = false → (gtFrame i count u).exposure = none) := by
  intro i count u
  refine ⟨fun h hu => ?_, fun h hu => ?_, fun h => ?_⟩
  · subst hu
    simp only [gtFrame, h, if_true]
    split_ifs <;> rfl
  · subst hu
    simp [gtFrame, h]
  · simp [gtFrame, h]

/-- Witness for the amended C9: the `.exr` marker file `rhs.exr` receives
the reduced constant. -/
theorem exr_frame_exposure_rule_witness :
    (gtFrame ['r', 'h', 's', '.', 'e', 'x', 'r'] 0 true).exposure =
      some (if ['r', 'h', 's', '.', 'e', 'x', 'r'].take 3 = ['r', 'h', 's']
        then (9 : ℚ) / 1000 else 1) :=
  (exr_frame_exposure_rule ['r', 'h', 's', '.', 'e', 'x', 'r'] 0 true).1 (by decide) rfl

/-- C10: the top-crop pass is not total on arrays containing the removed
sentinel: it always raises (modelled by the error channel) when a
sentinel is present, so whenever the bottom pass removed a ring and the
top fraction is also positive, the combined vertical crop fails instead
of returning bounds. -/
theorem crop_top_fails_on_removed :
    (∀ (arr : List (Option ℚ)) (fov cf : ℚ), none ∈ arr →
        cropTop arr fov cf = .error ()) ∧
      (∀ (fov : ℚ) (c : CropFactor) (arr1 : List (Option ℚ)), 0 < c.bottom → 0 < c.top →
        cropBottom initialBounds fov c.bottom = .ok arr1 → none ∈ arr1 →
        cropBoundArrVertical initialBounds fov c = .error ()) := by
  constructor
  · intro arr fov cf h
    exact cropTopGo_sentinel _ fov arr h
  · intro fov c arr1 hb ht hbot hmem
    rw [cropBoundArrVertical, if_pos hb, hbot]
    show (if c.top > 0 then cropTop arr1 fov c.top else .ok arr1) = .error ()
    rw [if_pos ht]
    exact cropTopGo_sentinel _ fov arr1 hmem

/-- Witness for C10: bottom crop 1/2 at fov 120 removes the top ring, and
the combined crop `(1/2, 1/2, 0, 0)` then fails. -/
theorem crop_top_fails_on_removed_witness :
    cropTop [none] 0 0 = .error () ∧
      cropBoundArrVertical initialBounds 120 ⟨1 / 2, 1 / 2, 0, 0⟩ = .error () :=
  ⟨crop_top_fails_on_removed.1 [none] 0 0 (by simp),
    crop_top_fails_on_removed.2 120 ⟨1 / 2, 1 / 2, 0, 0⟩ [some (-75), some (-60), none]
      (by norm_num) (by norm_num)
      (by norm_num [cropBottom, cropBottomGo, subDiffs, Except.map, initialBounds])
      (by simp)⟩

end EquirectUtils
